import Mathlib

/-!
# LS-8 emulator (`src/ls8/cpu.py`): shallow embedding

The source is a Python emulator of the LS-8 8-bit machine.  We embed the
`CPU` class faithfully:

* Python numbers stored in registers / memory are modelled as exact
  rationals (`ℚ`): the source never masks values, ints stay ints, and the
  one operation producing a float (`/=`, true division) is modelled by
  exact rational division (exact whenever the float result is exact, which
  covers every concrete input used below).
* Python `list` indexing is modelled by `pyIndex`: a non-integer index is
  a `TypeError`, a negative index within `-len .. -1` wraps to `len + i`,
  anything else is an `IndexError` — exactly CPython's semantics.
* Fallible Python operations (indexing, `/` and `%` by zero, shifts by a
  negative amount, the `raise` in `alu`) return `Except PyError`.
* `sys.exit()` in `hlt` is modelled by the `.halted` outcome of `step`.

Statement order and evaluation order inside each handler follow the
Python source line by line (this matters when the operand register is
register 7, the stack pointer).
-/

deriving instance DecidableEq for Except

set_option maxRecDepth 100000

namespace LS8

/-! ## Opcode constants (module-level constants of `cpu.py`) -/

def HLT : Int := 0b00000001
def LDI : Int := 0b10000010
def PRN : Int := 0b01000111
def POP : Int := 0b01000110
def PUSH : Int := 0b01000101
def CALL : Int := 0b01010000
def RET : Int := 0b00010001
def JMP : Int := 0b01010100
def JEQ : Int := 0b01010101
def JNE : Int := 0b01010110
def ADD : Int := 0b10100000
def SUB : Int := 0b10100001
def MUL : Int := 0b10100010
def DIV : Int := 0b10100011
def MOD : Int := 0b10100100
def INC : Int := 0b01100101
def DEC : Int := 0b01100110
def CMP : Int := 0b10100111
def AND : Int := 0b10101000
def NOT : Int := 0b01101001
def OR : Int := 0b10101010
def XOR : Int := 0b10101011
def SHL : Int := 0b10101100
def SHR : Int := 0b10101101

/-- `SP = 7`: register 7 is the stack pointer. -/
def SP : ℚ := 7

/-! ## Python-level primitives

Arithmetic on Python numbers is exact rational arithmetic.  The `Rat`
field operations of the library are irreducible, which would block
evaluating the emulator on concrete machine states, so the embedding uses
its own reducible copies built from `Rat.divInt`; `qadd_eq` … `qfloor_eq`
below prove them equal to the library operations. -/

/-- Python `+` on numbers (exact). -/
def qadd (a b : ℚ) : ℚ := Rat.divInt (a.num * b.den + b.num * a.den) (a.den * b.den)

/-- Python `-` on numbers (exact). -/
def qsub (a b : ℚ) : ℚ := Rat.divInt (a.num * b.den - b.num * a.den) (a.den * b.den)

/-- Python `*` on numbers (exact). -/
def qmul (a b : ℚ) : ℚ := Rat.divInt (a.num * b.num) (a.den * b.den)

/-- Python `/` (true division) on numbers, exact; only reached with a
nonzero divisor. -/
def qdiv (a b : ℚ) : ℚ := Rat.divInt (a.num * b.den) (a.den * b.num)

/-- `⌊a⌋` as Python computes it for `%`. -/
def qfloor (a : ℚ) : Int := Int.fdiv a.num a.den

/-- The Python errors the emulator can raise. -/
inductive PyError where
  | typeError
  | indexError
  | zeroDivision
  | valueError
  | unsupportedAlu
deriving DecidableEq

/-- CPython `list` index resolution for a list of length `len`: a
non-integer (float) index is a `TypeError`; `0 ≤ i < len` is itself;
`-len ≤ i < 0` wraps to `len + i`; anything else is an `IndexError`. -/
def pyIndex (len : Nat) (i : ℚ) : Except PyError Nat :=
  if i.den ≠ 1 then .error .typeError
  else if 0 ≤ i.num ∧ i.num < (len : Int) then .ok i.num.toNat
  else if -(len : Int) ≤ i.num ∧ i.num < 0 then .ok (i.num + len).toNat
  else .error .indexError

/-- `l[i]` with CPython indexing. -/
def listGetPy (l : List ℚ) (i : ℚ) : Except PyError ℚ :=
  (pyIndex l.length i).map fun n => l.getD n 0

/-- `l[i] = v` with CPython indexing. -/
def listSetPy (l : List ℚ) (i v : ℚ) : Except PyError (List ℚ) :=
  (pyIndex l.length i).map fun n => l.set n v

/-- A Python int extracted from a value; a float (non-integer rational)
is a `TypeError` where an int is required (`>>`, `&`, `|`, `^`, `~`). -/
def asInt (q : ℚ) : Except PyError Int :=
  if q.den = 1 then .ok q.num else .error .typeError

/-- Python `>>` by a constant: arithmetic (floor) shift. -/
def intShr (a : Int) (k : Nat) : Int := Int.fdiv a (2 ^ k)

/-- Python `%` (works on ints and floats): `a - b * ⌊a / b⌋`.  On ints
this is exactly CPython's floor-mod. -/
def pyMod (a b : ℚ) : ℚ := qsub a (qmul b ((qfloor (qdiv a b) : Int) : ℚ))

/-! ## Machine state (`CPU.__init__`) -/

/-- The mutable state of the `CPU` object: `self.ram` (256 cells),
`self.reg` (8 slots), `self.PC`, `self.FL`. -/
structure CPUState where
  ram : List ℚ
  reg : List ℚ
  PC : ℚ
  FL : Int
deriving DecidableEq

/-- The freshly constructed CPU: zeroed ram and registers except
`reg[SP] = 0xF4`. -/
def initCPU : CPUState :=
  { ram := List.replicate 256 0
    reg := [0, 0, 0, 0, 0, 0, 0, 0xF4]
    PC := 0
    FL := 0 }

/-! ## Memory / register access -/

/-- `CPU.ram_read` -/
def ram_read (s : CPUState) (address : ℚ) : Except PyError ℚ :=
  listGetPy s.ram address

/-- `CPU.ram_write` -/
def ram_write (s : CPUState) (address value : ℚ) : Except PyError CPUState :=
  (listSetPy s.ram address value).map fun r => { s with ram := r }

/-- `self.reg[i]` -/
def reg_read (s : CPUState) (i : ℚ) : Except PyError ℚ :=
  listGetPy s.reg i

/-- `self.reg[i] = v` -/
def reg_write (s : CPUState) (i v : ℚ) : Except PyError CPUState :=
  (listSetPy s.reg i v).map fun r => { s with reg := r }

/-! ## Instruction handlers (non-ALU) -/

/-- `CPU.ldi`: `self.reg[op_a] = op_b` -/
def ldi (s : CPUState) (op_a op_b : ℚ) : Except PyError CPUState :=
  reg_write s op_a op_b

/-- `CPU.prn`: prints `self.reg[op_a]` (output is not modelled; the read
can still raise). -/
def prn (s : CPUState) (op_a : ℚ) : Except PyError CPUState := do
  let _ ← reg_read s op_a
  pure s

/-- `CPU.pop`: `self.reg[op_a] = self.ram_read(self.reg[SP]); self.reg[SP] += 1` -/
def pop (s : CPUState) (op_a : ℚ) : Except PyError CPUState := do
  let sp ← reg_read s SP
  let v ← ram_read s sp
  let s1 ← reg_write s op_a v
  let sp1 ← reg_read s1 SP
  reg_write s1 SP (qadd sp1 1)

/-- `CPU.push`: `self.reg[SP] -= 1; self.ram_write(self.reg[SP], self.reg[op_a])` -/
def push (s : CPUState) (op_a : ℚ) : Except PyError CPUState := do
  let sp ← reg_read s SP
  let s1 ← reg_write s SP (qsub sp 1)
  let addr ← reg_read s1 SP
  let v ← reg_read s1 op_a
  ram_write s1 addr v

/-- `CPU.call`: `self.reg[SP] -= 1; self.ram_write(self.reg[SP], self.PC + 2);
self.PC = self.reg[op_a]` -/
def call (s : CPUState) (op_a : ℚ) : Except PyError CPUState := do
  let sp ← reg_read s SP
  let s1 ← reg_write s SP (qsub sp 1)
  let addr ← reg_read s1 SP
  let s2 ← ram_write s1 addr (qadd s1.PC 2)
  let t ← reg_read s2 op_a
  pure { s2 with PC := t }

/-- `CPU.ret`: `self.PC = self.ram_read(self.reg[SP]); self.reg[SP] += 1` -/
def ret (s : CPUState) : Except PyError CPUState := do
  let sp ← reg_read s SP
  let v ← ram_read s sp
  let s1 : CPUState := { s with PC := v }
  let sp1 ← reg_read s1 SP
  reg_write s1 SP (qadd sp1 1)

/-- `CPU.jmp`: `self.PC = self.reg[op_a]` -/
def jmp (s : CPUState) (op_a : ℚ) : Except PyError CPUState := do
  let t ← reg_read s op_a
  pure { s with PC := t }

/-- `CPU.jeq`: `if self.FL & 1: self.PC = self.reg[op_a] else: self.PC += 2` -/
def jeq (s : CPUState) (op_a : ℚ) : Except PyError CPUState :=
  if Int.land s.FL 1 ≠ 0 then do
    let t ← reg_read s op_a
    pure { s with PC := t }
  else
    pure { s with PC := qadd s.PC 2 }

/-- `CPU.jne`: `if not self.FL & 1: self.PC = self.reg[op_a] else: self.PC += 2` -/
def jne (s : CPUState) (op_a : ℚ) : Except PyError CPUState :=
  if Int.land s.FL 1 = 0 then do
    let t ← reg_read s op_a
    pure { s with PC := t }
  else
    pure { s with PC := qadd s.PC 2 }

/-! ## `CPU.alu` -/

/-- `CPU.alu(op, reg_a, reg_b)`: the `if/elif` chain of the source, in
source order.  Note two facts taken verbatim from the code: `DIV` uses
Python `/=` (true division, yielding a float when inexact), and `SHL` /
`SHR` shift by the raw operand byte `reg_b`, not by `self.reg[reg_b]`. -/
def alu (s : CPUState) (op : Int) (reg_a reg_b : ℚ) : Except PyError CPUState :=
  if op = ADD then do
    let a ← reg_read s reg_a
    let b ← reg_read s reg_b
    reg_write s reg_a (qadd a b)
  else if op = SUB then do
    let a ← reg_read s reg_a
    let b ← reg_read s reg_b
    reg_write s reg_a (qsub a b)
  else if op = MUL then do
    let a ← reg_read s reg_a
    let b ← reg_read s reg_b
    reg_write s reg_a (qmul a b)
  else if op = DIV then do
    let a ← reg_read s reg_a
    let b ← reg_read s reg_b
    if b = 0 then .error .zeroDivision else reg_write s reg_a (qdiv a b)
  else if op = MOD then do
    let a ← reg_read s reg_a
    let b ← reg_read s reg_b
    if b = 0 then .error .zeroDivision else reg_write s reg_a (pyMod a b)
  else if op = AND then do
    let a ← reg_read s reg_a
    let b ← reg_read s reg_b
    let ai ← asInt a
    let bi ← asInt b
    reg_write s reg_a ((Int.land ai bi : Int) : ℚ)
  else if op = OR then do
    let a ← reg_read s reg_a
    let b ← reg_read s reg_b
    let ai ← asInt a
    let bi ← asInt b
    reg_write s reg_a ((Int.lor ai bi : Int) : ℚ)
  else if op = XOR then do
    let a ← reg_read s reg_a
    let b ← reg_read s reg_b
    let ai ← asInt a
    let bi ← asInt b
    reg_write s reg_a ((Int.xor ai bi : Int) : ℚ)
  else if op = NOT then do
    let a ← reg_read s reg_a
    let ai ← asInt a
    reg_write s reg_a ((-ai - 1 : Int) : ℚ)
  else if op = SHL then do
    let a ← reg_read s reg_a
    let ai ← asInt a
    let bi ← asInt reg_b
    if bi < 0 then .error .valueError
    else reg_write s reg_a ((ai * 2 ^ bi.toNat : Int) : ℚ)
  else if op = SHR then do
    let a ← reg_read s reg_a
    let ai ← asInt a
    let bi ← asInt reg_b
    if bi < 0 then .error .valueError
    else reg_write s reg_a ((intShr ai bi.toNat : Int) : ℚ)
  else if op = INC then do
    let a ← reg_read s reg_a
    reg_write s reg_a (qadd a 1)
  else if op = DEC then do
    let a ← reg_read s reg_a
    reg_write s reg_a (qsub a 1)
  else if op = CMP then do
    let a ← reg_read s reg_a
    let b ← reg_read s reg_b
    pure { s with FL :=
      (if a < b then 1 else 0) * 2 ^ 2 +
      (if a > b then 1 else 0) * 2 ^ 1 +
      (if a = b then 1 else 0) }
  else
    .error .unsupportedAlu

/-! ## The run loop (`CPU.run`), one iteration -/

/-- Keys of `self.branch_table`, in source order. -/
def branch_table_keys : List Int :=
  [HLT, LDI, PRN, POP, PUSH, CALL, RET, JMP, JEQ, JNE,
   ADD, SUB, MUL, DIV, MOD, INC, DEC, CMP, AND, NOT, OR, XOR, SHL, SHR]

/-- Outcome of one iteration of the `while running` loop: either the
process exited via `sys.exit()` in `hlt`, or the loop continues in the
new state. -/
inductive StepResult where
  | halted
  | next (s : CPUState)
deriving DecidableEq

/-- The dispatch on a non-ALU table entry (`self.branch_table[ir](op_a, op_b)`
for every table key with bit 5 clear, except `HLT` which is handled by the
caller). -/
def dispatchNonAlu (s : CPUState) (ir : Int) (op_a op_b : ℚ) :
    Except PyError CPUState :=
  if ir = LDI then ldi s op_a op_b
  else if ir = PRN then prn s op_a
  else if ir = POP then pop s op_a
  else if ir = PUSH then push s op_a
  else if ir = CALL then call s op_a
  else if ir = RET then ret s
  else if ir = JMP then jmp s op_a
  else if ir = JEQ then jeq s op_a
  else if ir = JNE then jne s op_a
  else pure s

/-- One iteration of `CPU.run`'s `while` loop: fetch `ir`, `op_a`, `op_b`;
decode `num_operands = ir >> 6`, `PC_set = (ir >> 4) & 1`,
`ALU_operation = (ir >> 5) & 1`; dispatch through the branch table (an
unknown opcode only prints `Unsupported operation`); finally
`self.PC += num_operands + 1` unless `PC_set`. -/
def step (s : CPUState) : Except PyError StepResult := do
  let irq ← ram_read s s.PC
  let op_a ← ram_read s (qadd s.PC 1)
  let op_b ← ram_read s (qadd s.PC 2)
  let ir ← asInt irq
  let num_operands := intShr ir 6
  let PC_set := Int.land (intShr ir 4) 1
  let ALU_operation := Int.land (intShr ir 5) 1
  let advance : CPUState → Except PyError StepResult := fun s1 =>
    if PC_set = 0 then
      pure (.next { s1 with PC := qadd s1.PC ((num_operands + 1 : Int) : ℚ) })
    else
      pure (.next s1)
  if ir ∈ branch_table_keys then
    if ALU_operation = 1 then do
      let s1 ← alu s ir op_a op_b
      advance s1
    else if ir = HLT then
      pure .halted
    else do
      let s1 ← dispatchNonAlu s ir op_a op_b
      advance s1
  else
    advance s

/-! ## Concrete machine states used as test inputs -/

/-- 256 zeroed ram cells. -/
def zram : List ℚ := List.replicate 256 0

/-- A state with `R0 = 7`, `R1 = 2` and the conventional stack pointer. -/
def divState : CPUState := ⟨zram, [7, 2, 0, 0, 0, 0, 0, 244], 0, 0⟩

/-- A state for the SHL counterexample: `R0 = 1`, `R1 = 3`. -/
def shlState : CPUState := ⟨zram, [1, 3, 0, 0, 0, 0, 0, 244], 0, 0⟩

/-- A state for the SHR counterexample: `R0 = 16`, `R1 = 3`. -/
def shrState : CPUState := ⟨zram, [16, 3, 0, 0, 0, 0, 0, 244], 0, 0⟩

/-- A state whose next opcode byte is `0b00010000` (16): not in the branch
table and with bit 4 (`sets_pc`) set. -/
def unknownOpState : CPUState := ⟨zram.set 0 16, [0, 0, 0, 0, 0, 0, 0, 244], 0, 0⟩

/-- A state whose next opcode byte is `0b01000000` (64): not in the branch
table, one operand byte, bit 4 clear. -/
def unknownOpState2 : CPUState := ⟨zram.set 0 64, [0, 0, 0, 0, 0, 0, 0, 244], 0, 0⟩

/-- A state with the stack pointer at 0 (about to underflow). -/
def spZeroState : CPUState := ⟨zram, [9, 0, 0, 0, 0, 0, 0, 0], 0, 0⟩

/-! ## Bridge lemmas: the reducible rational operations agree with the
library's field structure on `ℚ` -/

lemma qadd_eq (a b : ℚ) : qadd a b = a + b := by
  have ha : ((a.den : ℚ)) ≠ 0 := by exact_mod_cast a.den_nz
  have hb : ((b.den : ℚ)) ≠ 0 := by exact_mod_cast b.den_nz
  rw [qadd, Rat.divInt_eq_div]
  push_cast
  conv_rhs => rw [← Rat.num_div_den a, ← Rat.num_div_den b]
  rw [div_add_div _ _ ha hb]
  congr 1
  ring

lemma qsub_eq (a b : ℚ) : qsub a b = a - b := by
  have ha : ((a.den : ℚ)) ≠ 0 := by exact_mod_cast a.den_nz
  have hb : ((b.den : ℚ)) ≠ 0 := by exact_mod_cast b.den_nz
  rw [qsub, Rat.divInt_eq_div]
  push_cast
  conv_rhs => rw [← Rat.num_div_den a, ← Rat.num_div_den b]
  rw [div_sub_div _ _ ha hb]
  congr 1
  ring

lemma qmul_eq (a b : ℚ) : qmul a b = a * b := by
  have ha : ((a.den : ℚ)) ≠ 0 := by exact_mod_cast a.den_nz
  have hb : ((b.den : ℚ)) ≠ 0 := by exact_mod_cast b.den_nz
  rw [qmul, Rat.divInt_eq_div]
  push_cast
  conv_rhs => rw [← Rat.num_div_den a, ← Rat.num_div_den b]
  rw [div_mul_div_comm]

lemma qdiv_eq (a b : ℚ) : qdiv a b = a / b := by
  have ha : ((a.den : ℚ)) ≠ 0 := by exact_mod_cast a.den_nz
  rcases eq_or_ne b 0 with rb | rb
  · subst rb; simp [qdiv, Rat.divInt_eq_div]
  · have hbn : ((b.num : ℚ)) ≠ 0 := by
      simpa [Rat.num_eq_zero] using rb
    have hbd : ((b.den : ℚ)) ≠ 0 := by exact_mod_cast b.den_nz
    rw [qdiv, Rat.divInt_eq_div]
    push_cast
    conv_rhs => rw [← Rat.num_div_den a, ← Rat.num_div_den b]
    field_simp

lemma qfloor_eq (a : ℚ) : qfloor a = ⌊a⌋ := by
  rw [qfloor, Rat.floor_def,
    Int.fdiv_eq_ediv _ (by exact_mod_cast Nat.zero_le a.den)]

/-- `pyMod` is the mathematical floor-mod. -/
lemma pyMod_eq (a b : ℚ) : pyMod a b = a - b * (⌊a / b⌋ : Int) := by
  rw [pyMod, qsub_eq, qmul_eq, qfloor_eq, qdiv_eq]

/-! ## Access-path lemmas -/

lemma ok_bind {α β : Type} (a : α) (f : α → Except PyError β) :
    (Except.ok a : Except PyError α) >>= f = f a := rfl

lemma getD_set_self (l : List ℚ) (n : Nat) (v : ℚ) (h : n < l.length) :
    (l.set n v).getD n 0 = v := by
  rw [List.getD_eq_getElem _ _ (by simpa using h)]
  exact List.getElem_set_self (by simpa using h)

lemma getD_set_ne (l : List ℚ) (m n : Nat) (v : ℚ) (h : m ≠ n) :
    (l.set m v).getD n 0 = l.getD n 0 := by
  rcases Nat.lt_or_ge n l.length with hn | hn
  · rw [List.getD_eq_getElem _ _ (by simpa using hn), List.getD_eq_getElem _ _ hn]
    exact List.getElem_set_ne (by simpa using h) ..
  · rw [List.getD_eq_default _ _ (by simpa using hn), List.getD_eq_default _ _ hn]

lemma pyIndex_lt {len : Nat} {i : ℚ} {n : Nat} (h : pyIndex len i = .ok n) :
    n < len := by
  rw [pyIndex] at h
  split at h
  · cases h
  · split at h
    · rename_i hc
      cases h
      omega
    · split at h
      · rename_i hc
        cases h
        omega
      · cases h

lemma listGetPy_ok {l : List ℚ} {i : ℚ} {n : Nat}
    (h : pyIndex l.length i = .ok n) : listGetPy l i = .ok (l.getD n 0) := by
  rw [listGetPy, h]; rfl

lemma listSetPy_ok {l : List ℚ} {i v : ℚ} {n : Nat}
    (h : pyIndex l.length i = .ok n) : listSetPy l i v = .ok (l.set n v) := by
  rw [listSetPy, h]; rfl

lemma reg_read_ok {s : CPUState} {i : ℚ} {n : Nat}
    (h : pyIndex s.reg.length i = .ok n) :
    reg_read s i = .ok (s.reg.getD n 0) := by
  rw [reg_read, listGetPy_ok h]

lemma reg_write_ok {s : CPUState} {i : ℚ} {n : Nat} (v : ℚ)
    (h : pyIndex s.reg.length i = .ok n) :
    reg_write s i v = .ok { s with reg := s.reg.set n v } := by
  rw [reg_write, listSetPy_ok h]; rfl

lemma ram_read_ok {s : CPUState} {i : ℚ} {n : Nat}
    (h : pyIndex s.ram.length i = .ok n) :
    ram_read s i = .ok (s.ram.getD n 0) := by
  rw [ram_read, listGetPy_ok h]

lemma ram_write_ok {s : CPUState} {i : ℚ} {n : Nat} (v : ℚ)
    (h : pyIndex s.ram.length i = .ok n) :
    ram_write s i v = .ok { s with ram := s.ram.set n v } := by
  rw [ram_write, listSetPy_ok h]; rfl

/-!
## Claim C7: PUSH then POP round-trip
-/

/-- C7: for every register operand `r` (resolving to index `rn`) and every
state whose stack pointer value `sp` makes the decremented stack cell a
valid memory index, `PUSH r` immediately followed by `POP r` succeeds,
restores register `r` to its pre-PUSH value, and leaves the stack pointer
(register 7) equal to its pre-PUSH value. -/

theorem push_pop_roundtrip (s : CPUState) (r sp : ℚ) (rn spn : Nat)
    (hreg : s.reg.length = 8)
    (hram : s.ram.length = 256)
    (hsp : reg_read s SP = .ok sp)
    (hrn : pyIndex 8 r = .ok rn)
    (hspn : pyIndex 256 (qsub sp 1) = .ok spn) :
    ∃ s2, push s r >>= (fun s1 => pop s1 r) = .ok s2 ∧
      reg_read s2 r = reg_read s r ∧
      reg_read s2 SP = .ok sp := by
  have hrn8 : rn < 8 := pyIndex_lt hrn
  have h7 : pyIndex s.reg.length SP = .ok 7 := by rw [hreg]; decide
  have h78 : (7:Nat) < s.reg.length := by omega
  have hsp0 : s.reg.getD 7 0 = sp := by
    have := reg_read_ok h7
    rw [this] at hsp
    exact Except.ok.inj hsp
  have hspq : qadd (qsub sp 1) 1 = sp := by
    rw [qadd_eq, qsub_eq]; ring
  -- s1: the state after `self.reg[SP] -= 1`
  have hw1 : reg_write s SP (qsub sp 1) =
      .ok ⟨s.ram, s.reg.set 7 (qsub sp 1), s.PC, s.FL⟩ := reg_write_ok _ h7
  have hlen1 : (⟨s.ram, s.reg.set 7 (qsub sp 1), s.PC, s.FL⟩ : CPUState).reg.length = 8 := by
    simpa using hreg
  have h7' : pyIndex (⟨s.ram, s.reg.set 7 (qsub sp 1), s.PC, s.FL⟩ : CPUState).reg.length SP = .ok 7 := by
    rw [hlen1]; decide
  have haddr : reg_read ⟨s.ram, s.reg.set 7 (qsub sp 1), s.PC, s.FL⟩ SP = .ok (qsub sp 1) := by
    rw [reg_read_ok h7']
    congr 1
    exact getD_set_self _ _ _ h78
  have hrn' : pyIndex (⟨s.ram, s.reg.set 7 (qsub sp 1), s.PC, s.FL⟩ : CPUState).reg.length r = .ok rn := by
    rw [hlen1]; exact hrn
  have hrv : reg_read ⟨s.ram, s.reg.set 7 (qsub sp 1), s.PC, s.FL⟩ r =
      .ok ((s.reg.set 7 (qsub sp 1)).getD rn 0) := reg_read_ok hrn'
  have hspn' : pyIndex (⟨s.ram, s.reg.set 7 (qsub sp 1), s.PC, s.FL⟩ : CPUState).ram.length (qsub sp 1) = .ok spn := by
    simpa [hram] using hspn
  have hww : ram_write ⟨s.ram, s.reg.set 7 (qsub sp 1), s.PC, s.FL⟩ (qsub sp 1)
      ((s.reg.set 7 (qsub sp 1)).getD rn 0) =
      .ok ⟨s.ram.set spn ((s.reg.set 7 (qsub sp 1)).getD rn 0),
           s.reg.set 7 (qsub sp 1), s.PC, s.FL⟩ :=
    ram_write_ok _ hspn'
  have hpush : push s r =
      .ok ⟨s.ram.set spn ((s.reg.set 7 (qsub sp 1)).getD rn 0),
           s.reg.set 7 (qsub sp 1), s.PC, s.FL⟩ := by
    rw [push, hsp, ok_bind, hw1, ok_bind, haddr, ok_bind, hrv, ok_bind, hww]
  -- now pop on the pushed state; write v for the pushed value
  have hv7 : rn = 7 → (s.reg.set 7 (qsub sp 1)).getD rn 0 = qsub sp 1 := by
    rintro rfl
    exact getD_set_self _ _ _ h78
  have hlen2 : (⟨s.ram.set spn ((s.reg.set 7 (qsub sp 1)).getD rn 0),
      s.reg.set 7 (qsub sp 1), s.PC, s.FL⟩ : CPUState).reg.length = 8 := by
    simpa using hreg
  have h7'' : pyIndex (⟨s.ram.set spn ((s.reg.set 7 (qsub sp 1)).getD rn 0),
      s.reg.set 7 (qsub sp 1), s.PC, s.FL⟩ : CPUState).reg.length SP = .ok 7 := by
    rw [hlen2]; decide
  have hpr1 : reg_read ⟨s.ram.set spn ((s.reg.set 7 (qsub sp 1)).getD rn 0),
      s.reg.set 7 (qsub sp 1), s.PC, s.FL⟩ SP = .ok (qsub sp 1) := by
    rw [reg_read_ok h7'']
    congr 1
    exact getD_set_self _ _ _ h78
  have hspn'' : pyIndex (⟨s.ram.set spn ((s.reg.set 7 (qsub sp 1)).getD rn 0),
      s.reg.set 7 (qsub sp 1), s.PC, s.FL⟩ : CPUState).ram.length (qsub sp 1) = .ok spn := by
    simpa [hram] using hspn
  have hspn256 : spn < s.ram.length := by rw [hram]; exact pyIndex_lt hspn
  have hpr2 : ram_read ⟨s.ram.set spn ((s.reg.set 7 (qsub sp 1)).getD rn 0),
      s.reg.set 7 (qsub sp 1), s.PC, s.FL⟩ (qsub sp 1) =
      .ok ((s.reg.set 7 (qsub sp 1)).getD rn 0) := by
    rw [ram_read_ok hspn'']
    congr 1
    exact getD_set_self _ _ _ (by simpa using hspn256)
  have hrn'' : pyIndex (⟨s.ram.set spn ((s.reg.set 7 (qsub sp 1)).getD rn 0),
      s.reg.set 7 (qsub sp 1), s.PC, s.FL⟩ : CPUState).reg.length r = .ok rn := by
    rw [hlen2]; exact hrn
  have hpr3 : reg_write ⟨s.ram.set spn ((s.reg.set 7 (qsub sp 1)).getD rn 0),
      s.reg.set 7 (qsub sp 1), s.PC, s.FL⟩ r ((s.reg.set 7 (qsub sp 1)).getD rn 0) =
      .ok ⟨s.ram.set spn ((s.reg.set 7 (qsub sp 1)).getD rn 0),
           (s.reg.set 7 (qsub sp 1)).set rn ((s.reg.set 7 (qsub sp 1)).getD rn 0),
           s.PC, s.FL⟩ :=
    reg_write_ok _ hrn''
  have hlen3 : (⟨s.ram.set spn ((s.reg.set 7 (qsub sp 1)).getD rn 0),
      (s.reg.set 7 (qsub sp 1)).set rn ((s.reg.set 7 (qsub sp 1)).getD rn 0),
      s.PC, s.FL⟩ : CPUState).reg.length = 8 := by
    simpa using hreg
  have h7''' : pyIndex (⟨s.ram.set spn ((s.reg.set 7 (qsub sp 1)).getD rn 0),
      (s.reg.set 7 (qsub sp 1)).set rn ((s.reg.set 7 (qsub sp 1)).getD rn 0),
      s.PC, s.FL⟩ : CPUState).reg.length SP = .ok 7 := by
    rw [hlen3]; decide
  -- after the write to r, register 7 still reads sp-1 (also when r resolves to 7)
  have hget7 : ((s.reg.set 7 (qsub sp 1)).set rn ((s.reg.set 7 (qsub sp 1)).getD rn 0)).getD 7 0
      = qsub sp 1 := by
    rcases eq_or_ne rn 7 with h | h
    · subst h
      have h1 : (s.reg.set 7 (qsub sp 1)).getD 7 0 = qsub sp 1 := getD_set_self _ _ _ h78
      rw [h1]
      exact getD_set_self _ _ _ (by simpa using h78)
    · rw [getD_set_ne _ _ _ _ h]
      exact getD_set_self _ _ _ h78
  have hpr4 : reg_read ⟨s.ram.set spn ((s.reg.set 7 (qsub sp 1)).getD rn 0),
      (s.reg.set 7 (qsub sp 1)).set rn ((s.reg.set 7 (qsub sp 1)).getD rn 0),
      s.PC, s.FL⟩ SP = .ok (qsub sp 1) := by
    rw [reg_read_ok h7''', hget7]
  have hpr5 : reg_write ⟨s.ram.set spn ((s.reg.set 7 (qsub sp 1)).getD rn 0),
      (s.reg.set 7 (qsub sp 1)).set rn ((s.reg.set 7 (qsub sp 1)).getD rn 0),
      s.PC, s.FL⟩ SP (qadd (qsub sp 1) 1) =
      .ok ⟨s.ram.set spn ((s.reg.set 7 (qsub sp 1)).getD rn 0),
           ((s.reg.set 7 (qsub sp 1)).set rn ((s.reg.set 7 (qsub sp 1)).getD rn 0)).set 7
             (qadd (qsub sp 1) 1),
           s.PC, s.FL⟩ :=
    reg_write_ok _ h7'''
  have hpop : pop ⟨s.ram.set spn ((s.reg.set 7 (qsub sp 1)).getD rn 0),
      s.reg.set 7 (qsub sp 1), s.PC, s.FL⟩ r =
      .ok ⟨s.ram.set spn ((s.reg.set 7 (qsub sp 1)).getD rn 0),
           ((s.reg.set 7 (qsub sp 1)).set rn ((s.reg.set 7 (qsub sp 1)).getD rn 0)).set 7
             (qadd (qsub sp 1) 1),
           s.PC, s.FL⟩ := by
    rw [pop, hpr1, ok_bind, hpr2, ok_bind, hpr3, ok_bind, hpr4, ok_bind, hpr5]
  refine ⟨_, by rw [hpush, ok_bind, hpop], ?_, ?_⟩
  · -- register r is restored
    have hlen4 : (⟨s.ram.set spn ((s.reg.set 7 (qsub sp 1)).getD rn 0),
        ((s.reg.set 7 (qsub sp 1)).set rn ((s.reg.set 7 (qsub sp 1)).getD rn 0)).set 7
          (qadd (qsub sp 1) 1),
        s.PC, s.FL⟩ : CPUState).reg.length = 8 := by
      simpa using hreg
    have hrnf : pyIndex (⟨s.ram.set spn ((s.reg.set 7 (qsub sp 1)).getD rn 0),
        ((s.reg.set 7 (qsub sp 1)).set rn ((s.reg.set 7 (qsub sp 1)).getD rn 0)).set 7
          (qadd (qsub sp 1) 1),
        s.PC, s.FL⟩ : CPUState).reg.length r = .ok rn := by
      rw [hlen4]; exact hrn
    rw [reg_read_ok hrnf, reg_read_ok (by rw [hreg]; exact hrn)]
    congr 1
    rcases eq_or_ne rn 7 with h | h
    · subst h
      rw [getD_set_self _ _ _ (by simpa using h78), hspq]
      exact hsp0.symm
    · rw [getD_set_ne _ _ _ _ (Ne.symm h)]
      rw [getD_set_self _ _ _ (by simpa [hreg] using hrn8)]
      exact getD_set_ne _ _ _ _ (Ne.symm h)
  · -- the stack pointer is restored
    have hlen5 : (⟨s.ram.set spn ((s.reg.set 7 (qsub sp 1)).getD rn 0),
        ((s.reg.set 7 (qsub sp 1)).set rn ((s.reg.set 7 (qsub sp 1)).getD rn 0)).set 7
          (qadd (qsub sp 1) 1),
        s.PC, s.FL⟩ : CPUState).reg.length = 8 := by
      simpa using hreg
    have h7f : pyIndex (⟨s.ram.set spn ((s.reg.set 7 (qsub sp 1)).getD rn 0),
        ((s.reg.set 7 (qsub sp 1)).set rn ((s.reg.set 7 (qsub sp 1)).getD rn 0)).set 7
          (qadd (qsub sp 1) 1),
        s.PC, s.FL⟩ : CPUState).reg.length SP = .ok 7 := by
      rw [hlen5]; decide
    rw [reg_read_ok h7f]
    rw [getD_set_self _ _ _ (by simpa using h78), hspq]


/-! ## Unfolding lemmas for the `alu` dispatch chain -/

lemma alu_ADD_eq (s : CPUState) (a b : ℚ) :
    alu s ADD a b = (reg_read s a >>= fun va => reg_read s b >>= fun vb =>
      reg_write s a (qadd va vb)) := by
  simp [alu, ADD]

lemma alu_SUB_eq (s : CPUState) (a b : ℚ) :
    alu s SUB a b = (reg_read s a >>= fun va => reg_read s b >>= fun vb =>
      reg_write s a (qsub va vb)) := by
  simp [alu, ADD, SUB]

lemma alu_MUL_eq (s : CPUState) (a b : ℚ) :
    alu s MUL a b = (reg_read s a >>= fun va => reg_read s b >>= fun vb =>
      reg_write s a (qmul va vb)) := by
  simp [alu, ADD, SUB, MUL]

lemma alu_DIV_eq (s : CPUState) (a b : ℚ) :
    alu s DIV a b = (reg_read s a >>= fun va => reg_read s b >>= fun vb =>
      if vb = 0 then .error .zeroDivision else reg_write s a (qdiv va vb)) := by
  simp [alu, ADD, SUB, MUL, DIV]

lemma alu_MOD_eq (s : CPUState) (a b : ℚ) :
    alu s MOD a b = (reg_read s a >>= fun va => reg_read s b >>= fun vb =>
      if vb = 0 then .error .zeroDivision else reg_write s a (pyMod va vb)) := by
  simp [alu, ADD, SUB, MUL, DIV, MOD]

lemma alu_CMP_eq (s : CPUState) (a b : ℚ) :
    alu s CMP a b = (reg_read s a >>= fun va => reg_read s b >>= fun vb =>
      pure { s with FL :=
        (if va < vb then 1 else 0) * 2 ^ 2 +
        (if va > vb then 1 else 0) * 2 ^ 1 +
        (if va = vb then 1 else 0) }) := by
  simp [alu, ADD, SUB, MUL, DIV, MOD, AND, OR, XOR, NOT, SHL, SHR, INC, DEC, CMP]

/-- Bits at and above position 3 of a small flags value are clear. -/
lemma testBit_small {m : Nat} (hm : m < 8) (k : Nat) (hk : 3 ≤ k) :
    ((m : Int)).testBit k = false := by
  have h2 : m < 2 ^ k :=
    Nat.lt_of_lt_of_le hm (le_trans (by norm_num) (Nat.pow_le_pow_right (by norm_num) hk))
  simpa [Int.testBit] using Nat.testBit_lt_two_pow h2

/-- C7 witness: `PUSH R0` then `POP R0` on the fresh CPU. -/
theorem push_pop_roundtrip_witness :
    ∃ s2, push initCPU 0 >>= (fun s1 => pop s1 0) = .ok s2 ∧
      reg_read s2 0 = reg_read initCPU 0 ∧
      reg_read s2 SP = .ok 244 :=
  push_pop_roundtrip initCPU 0 244 0 243
    (by decide) (by decide) (by decide) (by decide) (by decide)

/-!
## Claim C8: JEQ / JNE
-/

/-- C8: with the equal flag (bit 0 of `FL`) set, `JEQ` jumps to the target
register value `t` and `JNE` advances `PC` by 2; with the flag clear the
roles swap; and bit 4 (`sets_pc`) of both opcodes is set, so the run loop
applies no extra advance. -/
theorem jeq_jne_spec (s : CPUState) (r t : ℚ) (n : Nat)
    (hr : pyIndex s.reg.length r = .ok n)
    (ht : s.reg.getD n 0 = t) :
    (Int.land s.FL 1 ≠ 0 →
      jeq s r = .ok { s with PC := t } ∧ jne s r = .ok { s with PC := s.PC + 2 }) ∧
    (Int.land s.FL 1 = 0 →
      jeq s r = .ok { s with PC := s.PC + 2 } ∧ jne s r = .ok { s with PC := t }) ∧
    Int.land (intShr JEQ 4) 1 = 1 ∧ Int.land (intShr JNE 4) 1 = 1 := by
  have hq2 : qadd s.PC 2 = s.PC + 2 := qadd_eq ..
  refine ⟨fun hf => ⟨?_, ?_⟩, fun hf => ⟨?_, ?_⟩, by decide, by decide⟩
  · rw [jeq, if_pos hf, reg_read_ok hr, ok_bind, ht]; rfl
  · rw [jne, if_neg hf, hq2]; rfl
  · rw [jeq, if_neg (not_not_intro hf), hq2]; rfl
  · rw [jne, if_pos hf, reg_read_ok hr, ok_bind, ht]; rfl

/-- C8 witness. -/
theorem jeq_jne_spec_witness :
    (Int.land initCPU.FL 1 ≠ 0 →
      jeq initCPU 0 = .ok { initCPU with PC := 0 } ∧
      jne initCPU 0 = .ok { initCPU with PC := initCPU.PC + 2 }) ∧
    (Int.land initCPU.FL 1 = 0 →
      jeq initCPU 0 = .ok { initCPU with PC := initCPU.PC + 2 } ∧
      jne initCPU 0 = .ok { initCPU with PC := 0 }) ∧
    Int.land (intShr JEQ 4) 1 = 1 ∧ Int.land (intShr JNE 4) 1 = 1 :=
  jeq_jne_spec initCPU 0 0 0 (by decide) (by decide)

/-!
## Claim C4: DIV / MOD by zero
-/

/-- C4: executing `DIV` or `MOD` when the divisor register reads 0 raises
the Python `ZeroDivisionError`; no register is silently written. -/
theorem div_mod_by_zero (s : CPUState) (op : Int) (a b : ℚ) (va : ℚ)
    (hop : op = DIV ∨ op = MOD)
    (ha : reg_read s a = .ok va)
    (hb : reg_read s b = .ok 0) :
    alu s op a b = .error .zeroDivision := by
  rcases hop with rfl | rfl
  · rw [alu_DIV_eq, ha, ok_bind, hb, ok_bind, if_pos rfl]
  · rw [alu_MOD_eq, ha, ok_bind, hb, ok_bind, if_pos rfl]

/-- C4 witness (`DIV R0,R1` with `R1 = 0` on the fresh CPU). -/
theorem div_mod_by_zero_witness :
    alu initCPU DIV 0 1 = .error .zeroDivision :=
  div_mod_by_zero initCPU DIV 0 1 0 (Or.inl rfl) (by decide) (by decide)

/-!
## Claim C5: CMP flag semantics
-/

/-- C5: `CMP regA regB` rebuilds the flags register from the two register
values alone: bit 2 is less-than, bit 1 is greater-than, bit 0 is equal,
exactly one of the three is set (the flags value is 4, 2 or 1), all higher
bits are clear, and nothing else in the state changes. -/
theorem cmp_flags (s : CPUState) (a b va vb : ℚ)
    (ha : reg_read s a = .ok va) (hb : reg_read s b = .ok vb) :
    ∃ s2, alu s CMP a b = .ok s2 ∧
      s2.FL.testBit 2 = decide (va < vb) ∧
      s2.FL.testBit 1 = decide (vb < va) ∧
      s2.FL.testBit 0 = decide (va = vb) ∧
      (∀ k, 3 ≤ k → s2.FL.testBit k = false) ∧
      (s2.FL = 4 ∨ s2.FL = 2 ∨ s2.FL = 1) ∧
      s2.ram = s.ram ∧ s2.reg = s.reg ∧ s2.PC = s.PC := by
  rcases lt_trichotomy va vb with h | h | h
  · have hstep : alu s CMP a b = .ok { s with FL := 4 } := by
      rw [alu_CMP_eq, ha, ok_bind, hb, ok_bind, if_pos h, if_neg (lt_asymm h),
        if_neg (ne_of_lt h), show (1:Int) * 2 ^ 2 + 0 * 2 ^ 1 + 0 = 4 from by norm_num]
      rfl
    refine ⟨_, hstep, ?_, ?_, ?_, ?_, Or.inl rfl, rfl, rfl, rfl⟩
    · rw [decide_eq_true h]; show (4:Int).testBit 2 = true; decide
    · rw [decide_eq_false (lt_asymm h)]; show (4:Int).testBit 1 = false; decide
    · rw [decide_eq_false (ne_of_lt h)]; show (4:Int).testBit 0 = false; decide
    · intro k hk
      exact testBit_small (show (4:Nat) < 8 from by norm_num) k hk
  · subst h
    have hstep : alu s CMP a b = .ok { s with FL := 1 } := by
      rw [alu_CMP_eq, ha, ok_bind, hb, ok_bind, if_neg (lt_irrefl va),
        if_pos rfl, show (0:Int) * 2 ^ 2 + 0 * 2 ^ 1 + 1 = 1 from by norm_num]
      rfl
    refine ⟨_, hstep, ?_, ?_, ?_, ?_, Or.inr (Or.inr rfl), rfl, rfl, rfl⟩
    · rw [decide_eq_false (lt_irrefl va)]; show (1:Int).testBit 2 = false; decide
    · rw [decide_eq_false (lt_irrefl va)]; show (1:Int).testBit 1 = false; decide
    · rw [decide_eq_true rfl]; show (1:Int).testBit 0 = true; decide
    · intro k hk
      exact testBit_small (show (1:Nat) < 8 from by norm_num) k hk
  · have hstep : alu s CMP a b = .ok { s with FL := 2 } := by
      rw [alu_CMP_eq, ha, ok_bind, hb, ok_bind, if_neg (lt_asymm h), if_pos h,
        if_neg (ne_of_gt h), show (0:Int) * 2 ^ 2 + 1 * 2 ^ 1 + 0 = 2 from by norm_num]
      rfl
    refine ⟨_, hstep, ?_, ?_, ?_, ?_, Or.inr (Or.inl rfl), rfl, rfl, rfl⟩
    · rw [decide_eq_false (lt_asymm h)]; show (2:Int).testBit 2 = false; decide
    · rw [decide_eq_true h]; show (2:Int).testBit 1 = true; decide
    · rw [decide_eq_false (ne_of_gt h)]; show (2:Int).testBit 0 = false; decide
    · intro k hk
      exact testBit_small (show (2:Nat) < 8 from by norm_num) k hk

/-- C5 witness (`CMP R0,R1` on a state with `R0 = 7 > R1 = 2`). -/
theorem cmp_flags_witness :
    ∃ s2, alu divState CMP 0 1 = .ok s2 ∧
      s2.FL.testBit 2 = decide ((7:ℚ) < 2) ∧
      s2.FL.testBit 1 = decide ((2:ℚ) < 7) ∧
      s2.FL.testBit 0 = decide ((7:ℚ) = 2) ∧
      (∀ k, 3 ≤ k → s2.FL.testBit k = false) ∧
      (s2.FL = 4 ∨ s2.FL = 2 ∨ s2.FL = 1) ∧
      s2.ram = divState.ram ∧ s2.reg = divState.reg ∧ s2.PC = divState.PC :=
  cmp_flags divState 0 1 7 2 (by decide) (by decide)


/-!
## Claim C10: PUSH with the stack pointer at 0
-/

/-- C10: from any state in which register 7 holds 0, `PUSH r` succeeds —
no bounds error — decrementing the stack pointer to `-1` and writing the
value of register `r` at Python index `-1`, which resolves to memory
address 255; no other memory cell changes. -/
theorem push_at_sp_zero (s : CPUState) (r : ℚ) (rn : Nat)
    (hreg : s.reg.length = 8)
    (hram : s.ram.length = 256)
    (hsp : reg_read s SP = .ok 0)
    (hrn : pyIndex 8 r = .ok rn) :
    push s r = .ok ⟨s.ram.set 255 ((s.reg.set 7 (-1)).getD rn 0),
                    s.reg.set 7 (-1), s.PC, s.FL⟩ ∧
    pyIndex 256 (-1 : ℚ) = .ok 255 ∧
    (rn ≠ 7 → (s.reg.set 7 (-1)).getD rn 0 = s.reg.getD rn 0) := by
  have hq : qsub 0 1 = (-1 : ℚ) := by decide
  have h7 : pyIndex s.reg.length SP = .ok 7 := by rw [hreg]; decide
  have h78 : (7:Nat) < s.reg.length := by omega
  have hw1 : reg_write s SP (qsub 0 1) =
      .ok ⟨s.ram, s.reg.set 7 (-1), s.PC, s.FL⟩ := by
    rw [hq]; exact reg_write_ok _ h7
  have hlen1 : (⟨s.ram, s.reg.set 7 (-1), s.PC, s.FL⟩ : CPUState).reg.length = 8 := by
    simpa using hreg
  have h7x : pyIndex (⟨s.ram, s.reg.set 7 (-1), s.PC, s.FL⟩ : CPUState).reg.length SP = .ok 7 := by
    rw [hlen1]; decide
  have haddr : reg_read ⟨s.ram, s.reg.set 7 (-1), s.PC, s.FL⟩ SP = .ok (-1) := by
    rw [reg_read_ok h7x]
    congr 1
    exact getD_set_self _ _ _ h78
  have hrnx : pyIndex (⟨s.ram, s.reg.set 7 (-1), s.PC, s.FL⟩ : CPUState).reg.length r = .ok rn := by
    rw [hlen1]; exact hrn
  have hrv : reg_read ⟨s.ram, s.reg.set 7 (-1), s.PC, s.FL⟩ r =
      .ok ((s.reg.set 7 (-1)).getD rn 0) := reg_read_ok hrnx
  have hwa : pyIndex (⟨s.ram, s.reg.set 7 (-1), s.PC, s.FL⟩ : CPUState).ram.length (-1 : ℚ) = .ok 255 := by
    have : (⟨s.ram, s.reg.set 7 (-1), s.PC, s.FL⟩ : CPUState).ram.length = 256 := hram
    rw [this]; decide
  have hww : ram_write ⟨s.ram, s.reg.set 7 (-1), s.PC, s.FL⟩ (-1)
      ((s.reg.set 7 (-1)).getD rn 0) =
      .ok ⟨s.ram.set 255 ((s.reg.set 7 (-1)).getD rn 0), s.reg.set 7 (-1), s.PC, s.FL⟩ :=
    ram_write_ok _ hwa
  refine ⟨?_, by decide, fun hne => getD_set_ne _ _ _ _ (Ne.symm hne)⟩
  rw [push, hsp, ok_bind, hw1, ok_bind, haddr, ok_bind, hrv, ok_bind, hww]

/-- C10 witness: `PUSH R0` on a state with `SP = 0` and `R0 = 9`. -/
theorem push_at_sp_zero_witness :
    push spZeroState 0 = .ok ⟨spZeroState.ram.set 255 ((spZeroState.reg.set 7 (-1)).getD 0 0),
      spZeroState.reg.set 7 (-1), spZeroState.PC, spZeroState.FL⟩ ∧
    pyIndex 256 (-1 : ℚ) = .ok 255 ∧
    ((0:Nat) ≠ 7 → (spZeroState.reg.set 7 (-1)).getD 0 0 = spZeroState.reg.getD 0 0) :=
  push_at_sp_zero spZeroState 0 0 (by decide) (by decide) (by decide) (by decide)

/-!
## Claim C1: SHL / SHR shift amount (code bug)
-/

/-- C1: the code shifts by the raw operand byte, not by the contents of
register B.  With `R0 = 1`, `R1 = 3` and operands `0, 1`, `SHL` stores
`1 << 1 = 2`, not `1 << R1 = 8`; with `R0 = 16`, `SHR` stores
`16 >> 1 = 8`, not `16 >> R1 = 2`. -/
theorem shl_shr_shift_by_operand_byte :
    (alu shlState SHL 0 1).map (fun s2 => s2.reg.getD 0 0) = .ok 2 ∧
    (alu shrState SHR 0 1).map (fun s2 => s2.reg.getD 0 0) = .ok 8 ∧
    ((2:ℚ)) ≠ 8 ∧ ((8:ℚ)) ≠ 2 := by decide

/-!
## Claim C3: ADD/SUB/MUL/DIV/MOD vs native integer operations (code bug at DIV)
-/

/-- C3: `DIV` uses Python true division: with `R0 = 7`, `R1 = 2` the stored
value is the non-integer rational `7/2`, not the integer quotient
`7 / 2 = 3`.  (`ADD`, `SUB`, `MUL`, `MOD` do match the integer operations;
see the C9 frame theorem for their common shape.) -/
theorem div_is_true_division :
    (alu divState DIV 0 1).map (fun s2 => s2.reg.getD 0 0) = .ok (Rat.divInt 7 2) ∧
    (Rat.divInt 7 2).den ≠ 1 ∧
    Rat.divInt 7 2 ≠ (((7:Int) / 2 : Int) : ℚ) ∧
    (alu divState ADD 0 1).map (fun s2 => s2.reg.getD 0 0) = .ok (((7:Int) + 2 : Int) : ℚ) ∧
    (alu divState SUB 0 1).map (fun s2 => s2.reg.getD 0 0) = .ok (((7:Int) - 2 : Int) : ℚ) ∧
    (alu divState MUL 0 1).map (fun s2 => s2.reg.getD 0 0) = .ok (((7:Int) * 2 : Int) : ℚ) ∧
    (alu divState MOD 0 1).map (fun s2 => s2.reg.getD 0 0) = .ok ((Int.fmod 7 2 : Int) : ℚ) := by
  decide


/-!
## Claim C2: unknown opcode handling (corrected)
-/

/-- C2 counterexample: opcode byte 16 (`0b00010000`) is not in the branch
table and has bit 4 (`sets_pc`) set.  One step leaves the machine state —
including `PC` — completely unchanged, whereas the claim requires `PC` to
advance to `0 + (16 >> 6) + 1 = 1`. -/
theorem unknown_opcode_bit4_stalls :
    step unknownOpState = .ok (.next unknownOpState) ∧
    (16 : Int) ∉ branch_table_keys ∧
    Int.land (intShr 16 4) 1 = 1 ∧
    unknownOpState.PC = 0 ∧
    unknownOpState.PC ≠ unknownOpState.PC + ((intShr 16 6 + 1 : Int) : ℚ) := by
  refine ⟨by decide, by decide, by decide, by decide, ?_⟩
  rw [show (intShr 16 6 + 1 : Int) = 1 from by decide]
  show (0 : ℚ) ≠ 0 + ((1 : Int) : ℚ)
  norm_num

/-- C2 amended: an opcode byte not in the branch table is reported and the
loop continues (`.next`, not `.halted`, no error) with ram, registers and
flags unchanged; `PC` advances by the decoded operand count plus one when
bit 4 of the byte is clear, and stays unchanged when bit 4 is set. -/
theorem unknown_opcode_step (s : CPUState) (irq op_a op_b : ℚ) (ir : Int)
    (h0 : ram_read s s.PC = .ok irq)
    (h1 : ram_read s (qadd s.PC 1) = .ok op_a)
    (h2 : ram_read s (qadd s.PC 2) = .ok op_b)
    (hint : asInt irq = .ok ir)
    (hmem : ir ∉ branch_table_keys) :
    step s = .ok (.next ⟨s.ram, s.reg,
      if Int.land (intShr ir 4) 1 = 0 then s.PC + ((intShr ir 6 + 1 : Int) : ℚ) else s.PC,
      s.FL⟩) := by
  simp only [step, h0, h1, h2, hint, ok_bind]
  rw [if_neg hmem]
  by_cases hbit : Int.land (intShr ir 4) 1 = 0
  · rw [if_pos hbit, if_pos hbit, qadd_eq]; rfl
  · rw [if_neg hbit, if_neg hbit]; rfl

/-- C2 witness: opcode byte 64 (`0b01000000`), unknown with bit 4 clear,
advances `PC` by its operand count plus one. -/
theorem unknown_opcode_step_witness :
    step unknownOpState2 = .ok (.next ⟨unknownOpState2.ram, unknownOpState2.reg,
      if Int.land (intShr 64 4) 1 = 0
      then unknownOpState2.PC + ((intShr 64 6 + 1 : Int) : ℚ)
      else unknownOpState2.PC,
      unknownOpState2.FL⟩) :=
  unknown_opcode_step unknownOpState2 64 0 0 64
    (by decide) (by decide) (by decide) (by decide) (by decide)

/-!
## Claim C6: CALL then RET round-trip
-/

/-- C6: `CALL r` followed by the `RET` it reaches leaves `PC` at the
pre-CALL `PC + 2` and restores the stack pointer (register 7) to its
pre-CALL value, whenever the stack cell used and the operand register are
in range. -/
theorem call_ret_roundtrip (s : CPUState) (r sp : ℚ) (rn spn : Nat)
    (hreg : s.reg.length = 8)
    (hram : s.ram.length = 256)
    (hsp : reg_read s SP = .ok sp)
    (hrn : pyIndex 8 r = .ok rn)
    (hspn : pyIndex 256 (qsub sp 1) = .ok spn) :
    ∃ s2, call s r >>= ret = .ok s2 ∧
      s2.PC = s.PC + 2 ∧
      reg_read s2 SP = .ok sp := by
  have h7 : pyIndex s.reg.length SP = .ok 7 := by rw [hreg]; decide
  have h78 : (7:Nat) < s.reg.length := by omega
  have hspq : qadd (qsub sp 1) 1 = sp := by
    rw [qadd_eq, qsub_eq]; ring
  have hw1 : reg_write s SP (qsub sp 1) =
      .ok ⟨s.ram, s.reg.set 7 (qsub sp 1), s.PC, s.FL⟩ := reg_write_ok _ h7
  have hlen1 : (⟨s.ram, s.reg.set 7 (qsub sp 1), s.PC, s.FL⟩ : CPUState).reg.length = 8 := by
    simpa using hreg
  have h7x : pyIndex (⟨s.ram, s.reg.set 7 (qsub sp 1), s.PC, s.FL⟩ : CPUState).reg.length SP = .ok 7 := by
    rw [hlen1]; decide
  have haddr : reg_read ⟨s.ram, s.reg.set 7 (qsub sp 1), s.PC, s.FL⟩ SP = .ok (qsub sp 1) := by
    rw [reg_read_ok h7x]
    congr 1
    exact getD_set_self _ _ _ h78
  have hspnx : pyIndex (⟨s.ram, s.reg.set 7 (qsub sp 1), s.PC, s.FL⟩ : CPUState).ram.length (qsub sp 1) = .ok spn := by
    simpa [hram] using hspn
  have hww : ram_write ⟨s.ram, s.reg.set 7 (qsub sp 1), s.PC, s.FL⟩ (qsub sp 1)
      (qadd (⟨s.ram, s.reg.set 7 (qsub sp 1), s.PC, s.FL⟩ : CPUState).PC 2) =
      .ok ⟨s.ram.set spn (qadd s.PC 2), s.reg.set 7 (qsub sp 1), s.PC, s.FL⟩ :=
    ram_write_ok _ hspnx
  have hlen2 : (⟨s.ram.set spn (qadd s.PC 2), s.reg.set 7 (qsub sp 1), s.PC, s.FL⟩ : CPUState).reg.length = 8 := by
    simpa using hreg
  have hrnx : pyIndex (⟨s.ram.set spn (qadd s.PC 2), s.reg.set 7 (qsub sp 1), s.PC, s.FL⟩ : CPUState).reg.length r = .ok rn := by
    rw [hlen2]; exact hrn
  have htv : reg_read ⟨s.ram.set spn (qadd s.PC 2), s.reg.set 7 (qsub sp 1), s.PC, s.FL⟩ r =
      .ok ((s.reg.set 7 (qsub sp 1)).getD rn 0) := reg_read_ok hrnx
  have hcall : call s r =
      .ok ⟨s.ram.set spn (qadd s.PC 2), s.reg.set 7 (qsub sp 1),
           (s.reg.set 7 (qsub sp 1)).getD rn 0, s.FL⟩ := by
    rw [call, hsp, ok_bind, hw1, ok_bind, haddr, ok_bind, hww, ok_bind, htv, ok_bind]
    rfl
  -- now ret on the called state
  have hlen3 : (⟨s.ram.set spn (qadd s.PC 2), s.reg.set 7 (qsub sp 1),
      (s.reg.set 7 (qsub sp 1)).getD rn 0, s.FL⟩ : CPUState).reg.length = 8 := by
    simpa using hreg
  have h7y : pyIndex (⟨s.ram.set spn (qadd s.PC 2), s.reg.set 7 (qsub sp 1),
      (s.reg.set 7 (qsub sp 1)).getD rn 0, s.FL⟩ : CPUState).reg.length SP = .ok 7 := by
    rw [hlen3]; decide
  have hr1 : reg_read ⟨s.ram.set spn (qadd s.PC 2), s.reg.set 7 (qsub sp 1),
      (s.reg.set 7 (qsub sp 1)).getD rn 0, s.FL⟩ SP = .ok (qsub sp 1) := by
    rw [reg_read_ok h7y]
    congr 1
    exact getD_set_self _ _ _ h78
  have hspny : pyIndex (⟨s.ram.set spn (qadd s.PC 2), s.reg.set 7 (qsub sp 1),
      (s.reg.set 7 (qsub sp 1)).getD rn 0, s.FL⟩ : CPUState).ram.length (qsub sp 1) = .ok spn := by
    simpa [hram] using hspn
  have hspn256 : spn < s.ram.length := by rw [hram]; exact pyIndex_lt hspn
  have hr2 : ram_read ⟨s.ram.set spn (qadd s.PC 2), s.reg.set 7 (qsub sp 1),
      (s.reg.set 7 (qsub sp 1)).getD rn 0, s.FL⟩ (qsub sp 1) = .ok (qadd s.PC 2) := by
    rw [ram_read_ok hspny]
    congr 1
    exact getD_set_self _ _ _ (by simpa using hspn256)
  have hlen4 : (⟨s.ram.set spn (qadd s.PC 2), s.reg.set 7 (qsub sp 1),
      qadd s.PC 2, s.FL⟩ : CPUState).reg.length = 8 := by
    simpa using hreg
  have h7z : pyIndex (⟨s.ram.set spn (qadd s.PC 2), s.reg.set 7 (qsub sp 1),
      qadd s.PC 2, s.FL⟩ : CPUState).reg.length SP = .ok 7 := by
    rw [hlen4]; decide
  have hr3 : reg_read ⟨s.ram.set spn (qadd s.PC 2), s.reg.set 7 (qsub sp 1),
      qadd s.PC 2, s.FL⟩ SP = .ok (qsub sp 1) := by
    rw [reg_read_ok h7z]
    congr 1
    exact getD_set_self _ _ _ h78
  have hr4 : reg_write ⟨s.ram.set spn (qadd s.PC 2), s.reg.set 7 (qsub sp 1),
      qadd s.PC 2, s.FL⟩ SP (qadd (qsub sp 1) 1) =
      .ok ⟨s.ram.set spn (qadd s.PC 2), (s.reg.set 7 (qsub sp 1)).set 7 (qadd (qsub sp 1) 1),
           qadd s.PC 2, s.FL⟩ :=
    reg_write_ok _ h7z
  have hret : ret ⟨s.ram.set spn (qadd s.PC 2), s.reg.set 7 (qsub sp 1),
      (s.reg.set 7 (qsub sp 1)).getD rn 0, s.FL⟩ =
      .ok ⟨s.ram.set spn (qadd s.PC 2), (s.reg.set 7 (qsub sp 1)).set 7 (qadd (qsub sp 1) 1),
           qadd s.PC 2, s.FL⟩ := by
    rw [ret, hr1, ok_bind, hr2, ok_bind]
    dsimp only
    rw [hr3, ok_bind, hr4]
  refine ⟨_, by rw [hcall, ok_bind, hret], qadd_eq .., ?_⟩
  have hlen5 : (⟨s.ram.set spn (qadd s.PC 2),
      (s.reg.set 7 (qsub sp 1)).set 7 (qadd (qsub sp 1) 1),
      qadd s.PC 2, s.FL⟩ : CPUState).reg.length = 8 := by
    simpa using hreg
  have h7w : pyIndex (⟨s.ram.set spn (qadd s.PC 2),
      (s.reg.set 7 (qsub sp 1)).set 7 (qadd (qsub sp 1) 1),
      qadd s.PC 2, s.FL⟩ : CPUState).reg.length SP = .ok 7 := by
    rw [hlen5]; decide
  rw [reg_read_ok h7w]
  rw [getD_set_self _ _ _ (by simpa using h78), hspq]

/-- C6 witness: `CALL R0` from the fresh CPU (so `SP = 244`, `PC = 0`)
followed by `RET`. -/
theorem call_ret_roundtrip_witness :
    ∃ s2, call initCPU 0 >>= ret = .ok s2 ∧
      s2.PC = initCPU.PC + 2 ∧
      reg_read s2 SP = .ok 244 :=
  call_ret_roundtrip initCPU 0 244 0 243
    (by decide) (by decide) (by decide) (by decide) (by decide)

/-!
## Claim C9: frame property of the arithmetic instructions
-/

/-- The state after `reg_write` at index `an` agrees with the original
everywhere except register `an`. -/
lemma reg_set_frame (s : CPUState) (an bn : Nat) (v b : ℚ)
    (hb : pyIndex s.reg.length b = .ok bn) :
    (∀ k, k ≠ an → (s.reg.set an v).getD k 0 = s.reg.getD k 0) ∧
    (bn ≠ an → reg_read ⟨s.ram, s.reg.set an v, s.PC, s.FL⟩ b = reg_read s b) := by
  constructor
  · intro k hk
    exact getD_set_ne _ _ _ _ (Ne.symm hk)
  · intro hne
    have hbx : pyIndex (⟨s.ram, s.reg.set an v, s.PC, s.FL⟩ : CPUState).reg.length b = .ok bn := by
      have : (⟨s.ram, s.reg.set an v, s.PC, s.FL⟩ : CPUState).reg.length = s.reg.length := by
        simp
      rw [this]; exact hb
    rw [reg_read_ok hbx, reg_read_ok hb]
    congr 1
    exact getD_set_ne _ _ _ _ (Ne.symm hne)

/-- C9: each of `ADD`, `SUB`, `MUL`, `DIV`, `MOD` (divisor nonzero for the
last two) succeeds and writes only the destination register: memory, the
flags, `PC`, every other register, and in particular the source register
when it differs from the destination, are unchanged. -/
theorem arith_frame (s : CPUState) (op : Int) (a b : ℚ) (an bn : Nat)
    (hop : op = ADD ∨ op = SUB ∨ op = MUL ∨ op = DIV ∨ op = MOD)
    (ha : pyIndex s.reg.length a = .ok an)
    (hb : pyIndex s.reg.length b = .ok bn)
    (hdz : op = DIV ∨ op = MOD → s.reg.getD bn 0 ≠ 0) :
    ∃ s2, alu s op a b = .ok s2 ∧
      s2.ram = s.ram ∧ s2.FL = s.FL ∧ s2.PC = s.PC ∧
      (∀ k, k ≠ an → s2.reg.getD k 0 = s.reg.getD k 0) ∧
      (bn ≠ an → reg_read s2 b = reg_read s b) := by
  rcases hop with rfl | rfl | rfl | rfl | rfl
  · have hstep : alu s ADD a b =
        .ok ⟨s.ram, s.reg.set an (qadd (s.reg.getD an 0) (s.reg.getD bn 0)), s.PC, s.FL⟩ := by
      rw [alu_ADD_eq, reg_read_ok ha, ok_bind, reg_read_ok hb, ok_bind, reg_write_ok _ ha]
    exact ⟨_, hstep, rfl, rfl, rfl, (reg_set_frame s an bn _ b hb).1, (reg_set_frame s an bn _ b hb).2⟩
  · have hstep : alu s SUB a b =
        .ok ⟨s.ram, s.reg.set an (qsub (s.reg.getD an 0) (s.reg.getD bn 0)), s.PC, s.FL⟩ := by
      rw [alu_SUB_eq, reg_read_ok ha, ok_bind, reg_read_ok hb, ok_bind, reg_write_ok _ ha]
    exact ⟨_, hstep, rfl, rfl, rfl, (reg_set_frame s an bn _ b hb).1, (reg_set_frame s an bn _ b hb).2⟩
  · have hstep : alu s MUL a b =
        .ok ⟨s.ram, s.reg.set an (qmul (s.reg.getD an 0) (s.reg.getD bn 0)), s.PC, s.FL⟩ := by
      rw [alu_MUL_eq, reg_read_ok ha, ok_bind, reg_read_ok hb, ok_bind, reg_write_ok _ ha]
    exact ⟨_, hstep, rfl, rfl, rfl, (reg_set_frame s an bn _ b hb).1, (reg_set_frame s an bn _ b hb).2⟩
  · have hstep : alu s DIV a b =
        .ok ⟨s.ram, s.reg.set an (qdiv (s.reg.getD an 0) (s.reg.getD bn 0)), s.PC, s.FL⟩ := by
      rw [alu_DIV_eq, reg_read_ok ha, ok_bind, reg_read_ok hb, ok_bind,
        if_neg (hdz (Or.inl rfl)), reg_write_ok _ ha]
    exact ⟨_, hstep, rfl, rfl, rfl, (reg_set_frame s an bn _ b hb).1, (reg_set_frame s an bn _ b hb).2⟩
  · have hstep : alu s MOD a b =
        .ok ⟨s.ram, s.reg.set an (pyMod (s.reg.getD an 0) (s.reg.getD bn 0)), s.PC, s.FL⟩ := by
      rw [alu_MOD_eq, reg_read_ok ha, ok_bind, reg_read_ok hb, ok_bind,
        if_neg (hdz (Or.inr rfl)), reg_write_ok _ ha]
    exact ⟨_, hstep, rfl, rfl, rfl, (reg_set_frame s an bn _ b hb).1, (reg_set_frame s an bn _ b hb).2⟩

/-- C9 witness: `ADD R0,R1` on the state with `R0 = 7`, `R1 = 2`. -/
theorem arith_frame_witness :
    ∃ s2, alu divState ADD 0 1 = .ok s2 ∧
      s2.ram = divState.ram ∧ s2.FL = divState.FL ∧ s2.PC = divState.PC ∧
      (∀ k, k ≠ 0 → s2.reg.getD k 0 = divState.reg.getD k 0) ∧
      ((1:Nat) ≠ 0 → reg_read s2 1 = reg_read divState 1) :=
  arith_frame divState ADD 0 1 0 1 (Or.inl rfl) (by decide) (by decide) (by decide)

end LS8
